import Mathlib

/-!
Verification of the compras-backend purchase-list core:
pricing/subtotal rules, the draft→final list state machine, series-code
generation and the range-report aggregator, shallowly embedded from
`core/models.py`, `core/serializers.py`, `core/services.py` and
`core/views.py`.

Python `Decimal` values are embedded as `ℚ` (Decimal arithmetic is exact),
`Decimal.quantize(Decimal("0.01"), rounding=ROUND_HALF_UP)` as `round2`,
and `None` as `Option.none`.
-/

/-- Half-up rounding to 2 decimal places: `Decimal.quantize(Decimal("0.01"),
rounding=ROUND_HALF_UP)`.  `ROUND_HALF_UP` rounds to the nearest multiple of
`1/100`, ties going away from zero. -/
def round2 (x : ℚ) : ℚ :=
  if 0 ≤ x then ((⌊x * 100 + 1 / 2⌋ : ℤ) : ℚ) / 100
  else -(((⌊(-x) * 100 + 1 / 2⌋ : ℤ) : ℚ) / 100)

/-- A rational that is an exact two-decimal value (an integer number of cents). -/
def Mult100 (x : ℚ) : Prop := ∃ n : ℤ, x = (n : ℚ) / 100

theorem mult100_zero : Mult100 0 := ⟨0, by norm_num⟩

theorem mult100_add {a b : ℚ} (ha : Mult100 a) (hb : Mult100 b) :
    Mult100 (a + b) := by
  obtain ⟨n, hn⟩ := ha
  obtain ⟨m, hm⟩ := hb
  exact ⟨n + m, by rw [hn, hm]; push_cast; ring⟩

theorem mult100_round2 (x : ℚ) : Mult100 (round2 x) := by
  unfold round2
  by_cases h : 0 ≤ x
  · exact ⟨⌊x * 100 + 1 / 2⌋, by simp [h]⟩
  · refine ⟨-⌊(-x) * 100 + 1 / 2⌋, ?_⟩
    simp only [h, if_false]
    push_cast
    ring

theorem round2_mult100 {x : ℚ} (h : Mult100 x) : round2 x = x := by
  obtain ⟨n, hn⟩ := h
  have h100 : x * 100 = (n : ℚ) := by rw [hn]; field_simp
  unfold round2
  by_cases hx : 0 ≤ x
  · rw [if_pos hx, h100]
    have : ⌊(n : ℚ) + 1 / 2⌋ = n + ⌊(1 / 2 : ℚ)⌋ := Int.floor_int_add n (1 / 2 : ℚ)
    rw [this]
    norm_num [hn]
  · rw [if_neg hx]
    have hneg : (-x) * 100 = ((-n : ℤ) : ℚ) := by push_cast; linarith [h100]
    rw [hneg]
    have : ⌊((-n : ℤ) : ℚ) + 1 / 2⌋ = -n + ⌊(1 / 2 : ℚ)⌋ := Int.floor_int_add (-n) (1 / 2 : ℚ)
    rw [this]
    have h12 : ⌊(1 / 2 : ℚ)⌋ = 0 := by norm_num
    rw [h12, hn]
    push_cast
    ring

theorem round2_add_self {a b : ℚ} (ha : Mult100 a) (hb : Mult100 b) :
    round2 (a + b) = a + b :=
  round2_mult100 (mult100_add ha hb)

/-- `Unit` (core/models.py): only the fields the core rules read. -/
structure CUnit where
  name : String
  symbol : Option String
  is_currency : Bool
deriving DecidableEq

/-- `PurchaseListItem` (core/models.py) joined with its product's names,
as the views read it (`select_related("product__category", "unit")`). -/
structure Item where
  id : Nat
  product : String
  category : String
  category_id : Int
  product_id : Int
  unit : CUnit
  qty : Option ℚ
  price_soles : Option ℚ
deriving DecidableEq

/-- `PurchaseListItem.subtotal_soles` (core/models.py lines 241-249):
`qty or 0` when the unit is a currency, else `(qty or 0) * (price_soles or 0)`.
No rounding is applied here. -/
def subtotal_soles (it : Item) : ℚ :=
  if it.unit.is_currency then it.qty.getD 0
  else (it.qty.getD 0) * (it.price_soles.getD 0)

/-- The inline subtotal of `_build_range_payload` (core/views.py lines 587-593)
and `_render_pdf_html` (lines 255-258): `raw = qty if is_curr else qty * price`,
then quantized to 2 decimals half-up. -/
def report_subtotal (it : Item) : ℚ :=
  round2 (if it.unit.is_currency then it.qty.getD 0
          else (it.qty.getD 0) * (it.price_soles.getD 0))

/-- `PurchaseListItemSerializer.get_subtotal_soles` (core/serializers.py
lines 328-337): `_dec2(q)` for currency units, `_dec2(q * p)` otherwise,
with `q = qty or 0`, `p = price_soles or 0`. -/
def get_subtotal_soles (it : Item) : ℚ :=
  if it.unit.is_currency then round2 (it.qty.getD 0)
  else round2 ((it.qty.getD 0) * (it.price_soles.getD 0))

def kgUnit : CUnit := { name := "Kilogramo", symbol := some "kg", is_currency := false }

def solesUnit : CUnit := { name := "Soles", symbol := some "S/", is_currency := true }

/-- An item whose raw product has four decimal places: 1.11 × 1.11 = 1.2321. -/
def c1Item : Item :=
  { id := 1, product := "Arroz", category := "Abarrotes", category_id := 1,
    product_id := 1, unit := kgUnit, qty := some (111 / 100),
    price_soles := some (111 / 100) }

/-- C1: the claim that every computed subtotal rounds the product to 2 decimals
half-up fails on `PurchaseListItem.subtotal_soles` (core/models.py), which
returns the raw product: 1.11 × 1.11 gives 1.2321 there, while the report/PDF
computation (core/views.py) yields the claimed 1.23. -/
theorem c1_subtotal_counterexample :
    subtotal_soles c1Item ≠ report_subtotal c1Item ∧
    subtotal_soles c1Item = 12321 / 10000 ∧
    report_subtotal c1Item = 123 / 100 := by
  refine ⟨?_, ?_, ?_⟩ <;>
    norm_num [subtotal_soles, report_subtotal, round2, c1Item, kgUnit]

/-- C1 (amended): the subtotal computed by the report/PDF path
(`report_subtotal`, core/views.py) and by the serializer
(`get_subtotal_soles`, core/serializers.py) equals `round2 qty` for currency
units (any supplied price ignored) and `round2 (qty * price)` otherwise, a
null `qty`/`price_soles` entering as zero, and the two call sites agree; the
model property `subtotal_soles` uses the same null-as-zero rule but returns
`qty` resp. the raw product `qty * price` without rounding. All three are
total functions (never throw). -/
theorem c1_subtotal_amended (it : Item) :
    report_subtotal it =
      (if it.unit.is_currency then round2 (it.qty.getD 0)
       else round2 ((it.qty.getD 0) * (it.price_soles.getD 0))) ∧
    get_subtotal_soles it = report_subtotal it ∧
    subtotal_soles it =
      (if it.unit.is_currency then it.qty.getD 0
       else (it.qty.getD 0) * (it.price_soles.getD 0)) := by
  unfold report_subtotal get_subtotal_soles subtotal_soles
  by_cases h : it.unit.is_currency <;> simp [h]

/-- `PurchaseList.STATUS` (core/models.py): draft → final, no other states. -/
inductive Status where
  | draft
  | final
deriving DecidableEq

/-- `PurchaseList` (core/models.py) with its restaurant joined, restricted to
the fields the state machine reads and writes. -/
structure PL where
  id : Nat
  restaurant_code : String
  status : Status
  series_code : Option String
  observation : Option String
  finalized_at : Option Nat
  items : List Item
deriving DecidableEq

/-- Python `f"{n:04d}"`: decimal digits, left-padded with zeros to width 4. -/
def pad4 (n : Nat) : String :=
  let s := toString n
  if s.length < 4 then String.mk (List.replicate (4 - s.length) '0') ++ s else s

/-- A row of `PurchaseList` as `generate_series_code` queries it
(`restaurant__code`, `created_at__year`). -/
structure ListRow where
  restaurant_code : String
  created_year : Nat
deriving DecidableEq

/-- `generate_series_code` (core/services.py lines 5-19): under a
select-for-update read, count the lists of the restaurant created in `year`,
add one, and format `{year}-{restaurant_code}-{seq:04d}`. -/
def generate_series_code (restaurant_code : String) (rows : List ListRow)
    (year : Nat) : String :=
  let seq :=
    (rows.filter (fun r =>
      r.restaurant_code = restaurant_code ∧ r.created_year = year)).length + 1
  toString year ++ "-" ++ restaurant_code ++ "-" ++ pad4 seq

/-- The series code `finalize`/`complete` actually assign
(core/views.py lines 330-339 and 424-433): the import of
`next_series_code` from `core/services/serials.py` raises `ImportError`
(that module only defines `next_serial_for`), the call
`generate_series_code(pl.restaurant)` raises `TypeError` (its required
`model_cls` argument is not passed), and both are swallowed by
`except Exception`, so the executed branch is always
`f"{timezone.now().year}-{pl.restaurant.code}-{pl.id:04d}"`. -/
def series_fallback (year : Nat) (pl : PL) : String :=
  toString year ++ "-" ++ pl.restaurant_code ++ "-" ++ pad4 pl.id

/-- The loop of `_ensure_complete_prices` (core/views.py lines 236-240):
collect the product names of non-currency items with a null price, in item
order. -/
def missingNames : List Item → List String
  | [] => []
  | it :: rest =>
    if ¬ it.unit.is_currency ∧ it.price_soles = none then
      it.product :: missingNames rest
    else missingNames rest

/-- `_ensure_complete_prices` (core/views.py lines 234-243): `none` when all
non-currency items are priced, otherwise the `ValidationError` message naming
the first 10 missing products, with a `y N más` suffix when more than 10. -/
def ensure_complete_msg (pl : PL) : Option String :=
  let missing := missingNames pl.items
  if missing.isEmpty then none
  else
    let msg := "Faltan precios en: " ++ String.intercalate ", " (missing.take 10)
    some (if missing.length ≤ 10 then msg
          else msg ++ " y " ++ toString (missing.length - 10) ++ " más")

/-- Outcome of the `finalize` action (core/views.py lines 317-342). -/
inductive FinalizeResult where
  | ok (series_code : String)
  | alreadyFinalized
  | incompletePricing (msg : String)
deriving DecidableEq

/-- `PurchaseListViewSet.finalize` (core/views.py lines 317-342), returning
the HTTP outcome together with the persisted state of the list.  `year`/`ts`
stand for `timezone.now()`. -/
def finalize (year ts : Nat) (pl : PL) : FinalizeResult × PL :=
  if pl.status = Status.final then (FinalizeResult.alreadyFinalized, pl)
  else
    match ensure_complete_msg pl with
    | some msg => (FinalizeResult.incompletePricing msg, pl)
    | none =>
      let sc :=
        match pl.series_code with
        | some c => c
        | none => series_fallback year pl
      (FinalizeResult.ok sc,
        { pl with status := Status.final, finalized_at := some ts,
                  series_code := some sc })

/-- A draft list of restaurant ALP with primary key 7 and no items. -/
def demoDraftALP : PL :=
  { id := 7, restaurant_code := "ALP", status := Status.draft,
    series_code := none, observation := none, finalized_at := none,
    items := [] }

/-- C2: the sequence embedded in an assigned series code is the list's
primary key, not the per-restaurant-per-year count plus one.  Finalizing the
first 2025 list of restaurant ALP (primary key 7, no prior lists) succeeds
and stores `2025-ALP-0007`, while the claimed `generate_series_code`
formula gives `2025-ALP-0001`: the service imports in `finalize` always
fail (wrong symbol name, wrong arity) and the id-based fallback runs. -/
theorem c2_series_code_uses_list_id :
    (finalize 2025 0 demoDraftALP).2.series_code = some "2025-ALP-0007" ∧
    (finalize 2025 0 demoDraftALP).1 = FinalizeResult.ok "2025-ALP-0007" ∧
    generate_series_code "ALP" [] 2025 = "2025-ALP-0001" ∧
    (finalize 2025 0 demoDraftALP).2.series_code ≠
      some (generate_series_code "ALP" [] 2025) := by
  decide

/-- The non-currency items with a missing price, by product name — the
spec's description of what `ensureComplete` reports. -/
def offendingProducts (pl : PL) : List String :=
  (pl.items.filter
    (fun it => ¬ it.unit.is_currency ∧ it.price_soles = none)).map Item.product

/-- The spec's description of the `IncompletePricing` message: up to 10
offending product names, a truncation suffix reporting how many more when
there are over 10. -/
def incompletePricingMessage (ms : List String) : String :=
  if ms.length ≤ 10 then
    "Faltan precios en: " ++ String.intercalate ", " (ms.take 10)
  else
    "Faltan precios en: " ++ String.intercalate ", " (ms.take 10) ++
      " y " ++ toString (ms.length - 10) ++ " más"

theorem missingNames_eq_offending (l : List Item) :
    missingNames l =
      (l.filter (fun it => ¬ it.unit.is_currency ∧ it.price_soles = none)).map
        Item.product := by
  induction l with
  | nil => rfl
  | cons it rest ih =>
    simp only [missingNames]
    by_cases h : ¬ it.unit.is_currency ∧ it.price_soles = none
    · rw [if_pos h, ih, List.filter_cons, if_pos (by simpa using h)]
      rfl
    · rw [if_neg h, ih, List.filter_cons, if_neg (by simpa using h)]

theorem ensure_complete_msg_eq (pl : PL) :
    ensure_complete_msg pl =
      (if offendingProducts pl = [] then none
       else some (incompletePricingMessage (offendingProducts pl))) := by
  unfold ensure_complete_msg incompletePricingMessage
  rw [missingNames_eq_offending]
  by_cases h : offendingProducts pl = []
  · rw [if_pos h]
    unfold offendingProducts at h
    rw [h]
    rfl
  · have he : (offendingProducts pl).isEmpty = false := by
      simp [List.isEmpty_iff, h]
    unfold offendingProducts at he
    simp only [he, Bool.false_eq_true, if_false, if_neg h]
    rfl

/-- C4: finalizing a draft list that still has a non-currency item without a
price fails with the `IncompletePricing` message naming the first 10
offending products (plus a `y N más` suffix past 10), and returns the list
unchanged: status, series_code and finalized_at keep their values. -/
theorem c4_finalize_incomplete (year ts : Nat) (pl : PL)
    (h1 : pl.status = Status.draft)
    (h2 : offendingProducts pl ≠ []) :
    finalize year ts pl =
      (FinalizeResult.incompletePricing
        (incompletePricingMessage (offendingProducts pl)), pl) := by
  unfold finalize
  rw [h1, ensure_complete_msg_eq]
  simp [h2]

/-- A draft list with one unpriced non-currency item. -/
def demoIncompleteList : PL :=
  { id := 3, restaurant_code := "MIL", status := Status.draft,
    series_code := none, observation := none, finalized_at := none,
    items := [{ id := 21, product := "Arroz", category := "Abarrotes",
                category_id := 1, product_id := 4, unit := kgUnit,
                qty := some 3, price_soles := none }] }

/-- Witness for C4 at a concrete list. -/
theorem c4_finalize_incomplete_witness :
    demoIncompleteList.status = Status.draft ∧
    offendingProducts demoIncompleteList ≠ [] ∧
    finalize 2025 9 demoIncompleteList =
      (FinalizeResult.incompletePricing
        (incompletePricingMessage (offendingProducts demoIncompleteList)),
       demoIncompleteList) :=
  ⟨by decide, by decide,
   c4_finalize_incomplete 2025 9 demoIncompleteList (by decide) (by decide)⟩

theorem finalize_ok_status {y t : Nat} {pl plF : PL} {sc : String}
    (h : finalize y t pl = (FinalizeResult.ok sc, plF)) :
    plF.status = Status.final := by
  unfold finalize at h
  by_cases hs : pl.status = Status.final
  · simp [hs] at h
  · rw [if_neg hs] at h
    cases hmsg : ensure_complete_msg pl with
    | some m => rw [hmsg] at h; simp at h
    | none =>
      rw [hmsg] at h
      have := congrArg Prod.snd h
      simp at this
      rw [← this]

/-- C6: `finalize` is idempotent-safe — after a first successful
finalization producing state `plF`, any second call answers
`AlreadyFinalized` and returns `plF` untouched, so `series_code`,
`finalized_at` and every other field keep the values set by the first
success. -/
theorem c6_finalize_idempotent (y t y2 t2 : Nat) (pl : PL) (sc : String)
    (plF : PL) (h : finalize y t pl = (FinalizeResult.ok sc, plF)) :
    finalize y2 t2 plF = (FinalizeResult.alreadyFinalized, plF) := by
  unfold finalize
  simp [finalize_ok_status h]

/-- The state persisted by a successful `finalize` of `demoDraftALP`. -/
def demoFinalALP : PL :=
  { id := 7, restaurant_code := "ALP", status := Status.final,
    series_code := some "2025-ALP-0007", observation := none,
    finalized_at := some 0, items := [] }

/-- Witness for C6 at a concrete list. -/
theorem c6_finalize_idempotent_witness :
    finalize 2025 0 demoDraftALP = (FinalizeResult.ok "2025-ALP-0007", demoFinalALP) ∧
    finalize 2026 5 demoFinalALP = (FinalizeResult.alreadyFinalized, demoFinalALP) :=
  ⟨by decide,
   c6_finalize_idempotent 2025 0 2026 5 demoDraftALP "2025-ALP-0007"
     demoFinalALP (by decide)⟩

/-- One row of the `items` payload of `complete` (core/views.py lines
398-414): `id := none` models a row whose `id` does not parse with `int()`
(the row is skipped); `price := none` models `price_soles` null or `""`
(the price is cleared). -/
structure ItemUpdate where
  id : Option Nat
  price : Option ℚ
deriving DecidableEq

/-- The observation step of `complete` (core/views.py lines 391-394):
when an observation is supplied, store `str(obs).strip() or None`. -/
def apply_observation (pl : PL) (obs : Option String) : PL :=
  match obs with
  | none => pl
  | some s =>
    { pl with observation := if s.trim = "" then none else some s.trim }

/-- One iteration of the price-update loop of `complete` (core/views.py
lines 398-414): skip rows with unparseable ids and rows whose id matches no
item of the list; leave currency items untouched; otherwise store the
supplied price (possibly clearing it) and count the item as updated. -/
def apply_one_update (acc : PL × Nat) (u : ItemUpdate) : PL × Nat :=
  match u.id with
  | none => acc
  | some iid =>
    match acc.1.items.find? (fun it => it.id = iid) with
    | none => acc
    | some it =>
      if it.unit.is_currency then acc
      else
        ({ acc.1 with
            items := acc.1.items.map
              (fun j => if j.id = iid then { j with price_soles := u.price } else j) },
         acc.2 + 1)

/-- The whole price-update loop of `complete`, returning the updated list
and the count of items actually touched. -/
def apply_price_updates (pl : PL) (us : List ItemUpdate) : PL × Nat :=
  us.foldl apply_one_update (pl, 0)

/-- The list state after `complete` has stored the observation and applied
the price updates, before it re-checks completeness. -/
def completedState (pl : PL) (us : List ItemUpdate) (obs : Option String) : PL :=
  (apply_price_updates (apply_observation pl obs) us).1

/-- The number of prices `complete` reports as updated. -/
def updatedCount (pl : PL) (us : List ItemUpdate) (obs : Option String) : Nat :=
  (apply_price_updates (apply_observation pl obs) us).2

/-- Outcome of the `complete` action (core/views.py lines 378-440). -/
inductive CompleteResult where
  | alreadyFinalized
  | stillIncomplete (updated : Nat)
  | finalized (updated : Nat) (series_code : String)
deriving DecidableEq

/-- `PurchaseListViewSet.complete` (core/views.py lines 378-440): reject a
final list; otherwise store the observation, apply the price updates, and
either report partial success (HTTP 200, list stays as updated) or finalize
exactly as `finalize` does. -/
def complete (year ts : Nat) (pl : PL) (us : List ItemUpdate)
    (obs : Option String) : CompleteResult × PL :=
  if pl.status = Status.final then (CompleteResult.alreadyFinalized, pl)
  else
    let pl2 := completedState pl us obs
    let updated := updatedCount pl us obs
    match ensure_complete_msg pl2 with
    | some _ => (CompleteResult.stillIncomplete updated, pl2)
    | none =>
      let sc :=
        match pl2.series_code with
        | some c => c
        | none => series_fallback year pl2
      (CompleteResult.finalized updated sc,
        { pl2 with status := Status.final, finalized_at := some ts,
                   series_code := some sc })

theorem apply_observation_status (pl : PL) (obs : Option String) :
    (apply_observation pl obs).status = pl.status := by
  cases obs <;> rfl

theorem apply_observation_core (pl : PL) (obs : Option String) :
    (apply_observation pl obs).status = pl.status ∧
    (apply_observation pl obs).series_code = pl.series_code ∧
    (apply_observation pl obs).id = pl.id ∧
    (apply_observation pl obs).restaurant_code = pl.restaurant_code := by
  cases obs <;> exact ⟨rfl, rfl, rfl, rfl⟩

theorem apply_one_update_core (acc : PL × Nat) (u : ItemUpdate) :
    (apply_one_update acc u).1.status = acc.1.status ∧
    (apply_one_update acc u).1.series_code = acc.1.series_code ∧
    (apply_one_update acc u).1.id = acc.1.id ∧
    (apply_one_update acc u).1.restaurant_code = acc.1.restaurant_code := by
  obtain ⟨uid, uprice⟩ := u
  unfold apply_one_update
  cases uid with
  | none => exact ⟨rfl, rfl, rfl, rfl⟩
  | some iid =>
    simp only
    cases hf : acc.1.items.find? (fun it => it.id = iid) with
    | none => simp [hf]
    | some it =>
      simp only [hf]
      by_cases h : it.unit.is_currency = true <;> simp [h]

theorem apply_price_updates_core (pl : PL) (us : List ItemUpdate) :
    ∀ n : Nat,
      (us.foldl apply_one_update (pl, n)).1.status = pl.status ∧
      (us.foldl apply_one_update (pl, n)).1.series_code = pl.series_code ∧
      (us.foldl apply_one_update (pl, n)).1.id = pl.id ∧
      (us.foldl apply_one_update (pl, n)).1.restaurant_code = pl.restaurant_code := by
  induction us generalizing pl with
  | nil => intro n; exact ⟨rfl, rfl, rfl, rfl⟩
  | cons u rest ih =>
    intro n
    have h1 := apply_one_update_core (pl, n) u
    have h2 := ih (apply_one_update (pl, n) u).1 (apply_one_update (pl, n) u).2
    simp only [List.foldl_cons]
    constructor
    · rw [h2.1, h1.1]
    constructor
    · rw [h2.2.1, h1.2.1]
    constructor
    · rw [h2.2.2.1, h1.2.2.1]
    · rw [h2.2.2.2, h1.2.2.2]

theorem completedState_core (pl : PL) (us : List ItemUpdate) (obs : Option String) :
    (completedState pl us obs).status = pl.status ∧
    (completedState pl us obs).series_code = pl.series_code ∧
    (completedState pl us obs).id = pl.id ∧
    (completedState pl us obs).restaurant_code = pl.restaurant_code := by
  unfold completedState apply_price_updates
  have h1 := apply_price_updates_core (apply_observation pl obs) us 0
  have h2 := apply_observation_core pl obs
  refine ⟨?_, ?_, ?_, ?_⟩
  · rw [h1.1, h2.1]
  · rw [h1.2.1, h2.2.1]
  · rw [h1.2.2.1, h2.2.2.1]
  · rw [h1.2.2.2, h2.2.2.2]

theorem draft_ne_final : Status.draft ≠ Status.final := by decide

/-- C5: on a draft list, `complete` first stores the observation and applies
the price updates (currency items skipped); then, if every non-currency item
is priced, it finalizes exactly as `finalize` would on the updated list
(status final, finalized_at set, series code assigned) reporting the number
of updated prices; otherwise it answers a partial-success result with that
number and the list stays draft.  In particular a list that `finalize`
rejects reaches `final` via `complete` when the updates fill every gap. -/
theorem c5_complete_behaviour (year ts : Nat) (pl : PL) (us : List ItemUpdate)
    (obs : Option String) (h : pl.status = Status.draft) :
    (ensure_complete_msg (completedState pl us obs) = none →
      ∃ sc : String,
        complete year ts pl us obs =
          (CompleteResult.finalized (updatedCount pl us obs) sc,
           (finalize year ts (completedState pl us obs)).2) ∧
        (finalize year ts (completedState pl us obs)).1 = FinalizeResult.ok sc ∧
        (finalize year ts (completedState pl us obs)).2.status = Status.final ∧
        (finalize year ts (completedState pl us obs)).2.finalized_at = some ts ∧
        (finalize year ts (completedState pl us obs)).2.series_code = some sc) ∧
    (ensure_complete_msg (completedState pl us obs) ≠ none →
      complete year ts pl us obs =
        (CompleteResult.stillIncomplete (updatedCount pl us obs),
         completedState pl us obs) ∧
      (completedState pl us obs).status = Status.draft) := by
  have hst : (completedState pl us obs).status = Status.draft := by
    rw [(completedState_core pl us obs).1, h]
  have hne : ¬ pl.status = Status.final := by
    rw [h]; exact draft_ne_final
  have hne2 : ¬ (completedState pl us obs).status = Status.final := by
    rw [hst]; exact draft_ne_final
  constructor
  · intro hc
    refine ⟨match (completedState pl us obs).series_code with
            | some c => c
            | none => series_fallback year (completedState pl us obs), ?_, ?_, ?_, ?_, ?_⟩ <;>
      simp [complete, finalize, hne, hne2, hc]
  · intro hc
    obtain ⟨m, hm⟩ := Option.ne_none_iff_exists'.mp hc
    exact ⟨by simp [complete, hne, hm], hst⟩

/-- The price update that fills the single gap of `demoIncompleteList`. -/
def demoUpdates : List ItemUpdate := [{ id := some 21, price := some 9 }]

/-- Witness for C5: `demoIncompleteList` (rejected by `finalize`, see the C4
witness) reaches `final` through `complete` once the update supplies the
missing price. -/
theorem c5_complete_behaviour_witness :
    demoIncompleteList.status = Status.draft ∧
    ensure_complete_msg (completedState demoIncompleteList demoUpdates none) = none ∧
    (∃ sc : String,
      complete 2025 9 demoIncompleteList demoUpdates none =
        (CompleteResult.finalized (updatedCount demoIncompleteList demoUpdates none) sc,
         (finalize 2025 9 (completedState demoIncompleteList demoUpdates none)).2) ∧
      (finalize 2025 9 (completedState demoIncompleteList demoUpdates none)).1 =
        FinalizeResult.ok sc ∧
      (finalize 2025 9 (completedState demoIncompleteList demoUpdates none)).2.status =
        Status.final ∧
      (finalize 2025 9 (completedState demoIncompleteList demoUpdates none)).2.finalized_at =
        some 9 ∧
      (finalize 2025 9 (completedState demoIncompleteList demoUpdates none)).2.series_code =
        some sc) :=
  ⟨by decide, by decide,
   (c5_complete_behaviour 2025 9 demoIncompleteList demoUpdates none (by decide)).1
     (by decide)⟩

/-- A submitted numeric field as DRF sees it: absent, present but not
parseable as a decimal, or a parsed decimal value. -/
inductive FieldIn where
  | missing
  | unparseable
  | value (q : ℚ)
deriving DecidableEq

/-- A submitted nullable numeric field (`price_soles`): additionally may be
an explicit null. -/
inductive PriceIn where
  | absent
  | nullVal
  | unparseable
  | value (q : ℚ)
deriving DecidableEq

/-- The constraint a `DecimalField(max_digits=12, decimal_places=2)` value
must satisfy: at most 2 decimal places and at most 10 digits before the
point. -/
def dec12_2 (q : ℚ) : Prop := (q * 100).den = 1 ∧ |q| < 10 ^ 10

instance (q : ℚ) : Decidable (dec12_2 q) := by
  unfold dec12_2; infer_instance

/-- Validation of the required `qty` field of `PurchaseListItemSerializer`
(core/serializers.py lines 288-311): the model field
`qty = DecimalField(max_digits=12, decimal_places=2)` (core/models.py line
216) carries no further validators, so DRF rejects a missing or
non-numeric value and accepts any in-range decimal — including negative
ones. -/
def validate_qty : FieldIn → Except String ℚ
  | FieldIn.missing => Except.error "This field is required."
  | FieldIn.unparseable => Except.error "A valid number is required."
  | FieldIn.value q =>
    if (q * 100).den = 1 then
      if |q| < 10 ^ 10 then Except.ok q
      else Except.error "Ensure that there are no more than 10 digits before the decimal point."
    else Except.error "Ensure that there are no more than 2 decimal places."

/-- Validation of the optional nullable `price_soles` field
(`extra_kwargs = {"price_soles": {"required": False, "allow_null": True}}`). -/
def validate_price : PriceIn → Except String (Option ℚ)
  | PriceIn.absent => Except.ok none
  | PriceIn.nullVal => Except.ok none
  | PriceIn.unparseable => Except.error "A valid number is required."
  | PriceIn.value q =>
    if (q * 100).den = 1 then
      if |q| < 10 ^ 10 then Except.ok (some q)
      else Except.error "Ensure that there are no more than 10 digits before the decimal point."
    else Except.error "Ensure that there are no more than 2 decimal places."

/-- The payload of `POST /purchase-lists/{pk}/items/`, with the product and
unit already resolved against the owner's catalogue. -/
structure ItemInput where
  id : Nat
  product : String
  category : String
  category_id : Int
  product_id : Int
  unit : CUnit
  qty : FieldIn
  price_soles : PriceIn
deriving DecidableEq

/-- `PurchaseListViewSet.items`, POST branch (core/views.py lines 357-376):
reject a finalized list, run `PurchaseListItemSerializer` validation, then
persist the new item (the model's `clean` is not invoked on this path). -/
def addItem (pl : PL) (inp : ItemInput) : Except String PL :=
  if pl.status = Status.final then
    Except.error "No se pueden editar listas finalizadas."
  else
    match validate_qty inp.qty, validate_price inp.price_soles with
    | Except.ok q, Except.ok p =>
      Except.ok
        { pl with
            items := pl.items ++
              [{ id := inp.id, product := inp.product, category := inp.category,
                 category_id := inp.category_id, product_id := inp.product_id,
                 unit := inp.unit, qty := some q, price_soles := p }] }
    | Except.error e, _ => Except.error e
    | _, Except.error e => Except.error e

/-- The validated payload of the item PATCH
(`PurchaseListItemPatchSerializer`, core/serializers.py lines 203-251):
`none` = key absent; `some none` = null/empty supplied (cleared);
`some (some q)` = a parsed decimal. -/
structure PatchValidated where
  price : Option (Option ℚ)
  quantity : Option (Option ℚ)
deriving DecidableEq

/-- `PurchaseListItemPatchSerializer.update` (core/serializers.py lines
253-286): apply a supplied non-null quantity to `qty`; for a currency unit
force `price_soles` to null regardless of the payload; otherwise store the
supplied price (possibly null).  The `notes`/`observations` branch is a
no-op: `PurchaseListItem` has neither field. -/
def patch_update (it : Item) (v : PatchValidated) : Item :=
  let it1 :=
    match v.quantity with
    | some (some q) => { it with qty := some q }
    | _ => it
  if it1.unit.is_currency then { it1 with price_soles := none }
  else
    match v.price with
    | some p => { it1 with price_soles := p }
    | none => it1

/-- Modelled from the spec: the HTTP view dispatching the item PATCH is not
under src/ — core/urls.py registers `purchase-list-items` with a
`PurchaseListItemReadOnlyViewSet` that no source file defines, so only its
serializer (`PurchaseListItemPatchSerializer`) is available.  Per the spec
(§4.2, §8: "No item can be added, edited, or price-patched once its parent
list's status == final") the view rejects the request with a
`ListFinalized` error when the parent list is final, and otherwise applies
the serializer's `update` to the addressed item. -/
def patchItem (pl : PL) (itemId : Nat) (v : PatchValidated) : Except String PL :=
  if pl.status = Status.final then Except.error "ListFinalized"
  else
    Except.ok
      { pl with
          items := pl.items.map
            (fun it => if it.id = itemId then patch_update it v else it) }

/-- `PurchaseListItem.clean` (core/models.py lines 224-239) given the parent
list's status: for a currency unit, reject any `price_soles` other than
null or zero; for a non-currency unit, require a price only when the parent
list is final.  Returns the raised message, or `none` when validation
passes (`clean` never modifies the item). -/
def clean (parentStatus : Status) (it : Item) : Option String :=
  if it.unit.is_currency then
    if it.price_soles = none ∨ it.price_soles = some 0 then none
    else some "Para unidad monetaria, no debe enviarse price_soles (use solo qty como importe)."
  else
    if parentStatus = Status.final ∧ it.price_soles = none then
      some "price_soles es obligatorio para unidades no monetarias al finalizar la lista."
    else none

/-- C3: once a list is final, no mutating operation succeeds — adding an
item, patching an item's price, and `complete` are all rejected with the
finalized-list error, and the list together with all its items is returned
unchanged (the rejected `complete` hands back exactly the input state; the
rejected `addItem`/`patchItem` produce no state at all). -/
theorem c3_final_immutable (pl : PL) (h : pl.status = Status.final)
    (inp : ItemInput) (itemId : Nat) (v : PatchValidated)
    (year ts : Nat) (us : List ItemUpdate) (obs : Option String) :
    addItem pl inp = Except.error "No se pueden editar listas finalizadas." ∧
    patchItem pl itemId v = Except.error "ListFinalized" ∧
    complete year ts pl us obs = (CompleteResult.alreadyFinalized, pl) := by
  refine ⟨?_, ?_, ?_⟩ <;> simp [addItem, patchItem, complete, h]

/-- Witness for C3 on a concrete finalized list. -/
theorem c3_final_immutable_witness :
    demoFinalALP.status = Status.final ∧
    (addItem demoFinalALP
        { id := 50, product := "Arroz", category := "Abarrotes",
          category_id := 1, product_id := 4, unit := kgUnit,
          qty := FieldIn.value 2, price_soles := PriceIn.absent } =
      Except.error "No se pueden editar listas finalizadas." ∧
     patchItem demoFinalALP 50 { price := some (some 4), quantity := none } =
      Except.error "ListFinalized" ∧
     complete 2025 1 demoFinalALP [] none =
      (CompleteResult.alreadyFinalized, demoFinalALP)) :=
  ⟨by decide,
   c3_final_immutable demoFinalALP (by decide) _ 50
     { price := some (some 4), quantity := none } 2025 1 [] none⟩

/-- A currency-unit item that carries a (nonzero) standalone price. -/
def c8Item : Item :=
  { id := 31, product := "Caja chica", category := "Gastos", category_id := 2,
    product_id := 9, unit := solesUnit, qty := some 45, price_soles := some 5 }

/-- C8: the claim that item validation silently forces a supplied price to
null fails on `PurchaseListItem.clean` (core/models.py lines 224-239): for a
currency unit with `price_soles = 5` it raises a `ValidationError` instead
of normalizing — the stored price is untouched and the error is not
silent. -/
theorem c8_clean_counterexample :
    c8Item.unit.is_currency = true ∧
    clean Status.draft c8Item =
      some "Para unidad monetaria, no debe enviarse price_soles (use solo qty como importe)." := by
  constructor
  · decide
  · have h50 : (5 : ℚ) ≠ 0 := by norm_num
    simp [clean, c8Item, solesUnit, h50]

/-- C8 (amended): for an item whose unit is a currency, `clean` passes
exactly when `price_soles` is null or zero and raises otherwise (no silent
normalization at validation, and `clean` never modifies the item); the
patch serializer's `update` forces `price_soles` to null regardless of the
payload; and the price-update loop of `complete` silently skips the item,
leaving the whole state and the update count unchanged.  So after every
successful patch update a currency item carries no standalone price. -/
theorem c8_currency_price_amended (st : Status) (it : Item)
    (v : PatchValidated) (acc : PL × Nat) (u : ItemUpdate)
    (h : it.unit.is_currency = true) :
    (clean st it = none ↔ (it.price_soles = none ∨ it.price_soles = some 0)) ∧
    (patch_update it v).price_soles = none ∧
    (patch_update it v).unit = it.unit ∧
    (∀ iid, u.id = some iid →
      acc.1.items.find? (fun j => j.id = iid) = some it →
      apply_one_update acc u = acc) := by
  refine ⟨?_, ?_, ?_, ?_⟩
  · by_cases hp : it.price_soles = none ∨ it.price_soles = some 0 <;>
      simp [clean, h, hp]
  · rcases v with ⟨p, q⟩
    cases q with
    | none => simp [patch_update, h]
    | some o => cases o <;> simp [patch_update, h]
  · rcases v with ⟨p, q⟩
    cases q with
    | none => simp [patch_update, h]
    | some o => cases o <;> simp [patch_update, h]
  · intro iid hu hf
    simp [apply_one_update, hu, hf, h]

/-- A draft list holding the mispriced currency item `c8Item`. -/
def demoCurrencyList : PL :=
  { id := 8, restaurant_code := "ALP", status := Status.draft,
    series_code := none, observation := none, finalized_at := none,
    items := [c8Item] }

/-- Witness for C8 (amended) at a concrete currency item. -/
theorem c8_currency_price_amended_witness :
    c8Item.unit.is_currency = true ∧
    (patch_update c8Item { price := some (some 4), quantity := none }).price_soles = none ∧
    apply_one_update (demoCurrencyList, 0) { id := some 31, price := some 4 } =
      (demoCurrencyList, 0) := by
  have h := c8_currency_price_amended Status.draft c8Item
    { price := some (some 4), quantity := none }
    (demoCurrencyList, 0) { id := some 31, price := some 4 } (by decide)
  exact ⟨by decide, h.2.1, h.2.2.2 31 rfl (by decide)⟩

/-- An addItem payload carrying a negative quantity. -/
def c9Input : ItemInput :=
  { id := 41, product := "Arroz", category := "Abarrotes", category_id := 1,
    product_id := 4, unit := kgUnit, qty := FieldIn.value (-5),
    price_soles := PriceIn.absent }

/-- The item `addItem` persists for `c9Input`. -/
def c9StoredItem : Item :=
  { id := 41, product := "Arroz", category := "Abarrotes", category_id := 1,
    product_id := 4, unit := kgUnit, qty := some (-5), price_soles := none }

/-- C9: the claim that a negative quantity is rejected fails — the model
field `qty = DecimalField(max_digits=12, decimal_places=2)` (core/models.py
line 216) has no minimum-value validator and the serializer adds none, so
`addItem` with `qty = -5` succeeds and stores the negative quantity. -/
theorem c9_negative_qty_accepted :
    validate_qty (FieldIn.value (-5)) = Except.ok (-5) ∧
    addItem demoDraftALP c9Input =
      Except.ok { demoDraftALP with items := [c9StoredItem] } := by
  have hden : ((5 : ℚ) * 100).den = 1 := by
    have h5 : (5 : ℚ) * 100 = ((500 : ℤ) : ℚ) := by norm_num
    rw [h5, Rat.den_intCast]
  have habs : (5 : ℚ) < 10 ^ 10 := by norm_num
  have hq : validate_qty (FieldIn.value (-5)) = Except.ok (-5) := by
    simp [validate_qty, hden, habs]
  refine ⟨hq, ?_⟩
  simp [addItem, demoDraftALP, c9Input, hq, validate_price, c9StoredItem]

/-- C9 (amended): `addItem` on a draft list rejects a missing or
non-numeric quantity, and every accepted request appends exactly one item
whose stored qty is the parsed decimal of the payload — any value with at
most 2 decimal places and 12 digits, negative values included; no
non-negativity check exists. -/
theorem c9_qty_validation_amended (pl : PL) (inp : ItemInput)
    (h : pl.status = Status.draft) :
    (inp.qty = FieldIn.missing →
      addItem pl inp = Except.error "This field is required.") ∧
    (inp.qty = FieldIn.unparseable →
      addItem pl inp = Except.error "A valid number is required.") ∧
    (∀ pl', addItem pl inp = Except.ok pl' →
      ∃ q : ℚ, inp.qty = FieldIn.value q ∧ dec12_2 q ∧
        pl'.items.map Item.qty = pl.items.map Item.qty ++ [some q]) := by
  have hne : ¬ pl.status = Status.final := by rw [h]; exact draft_ne_final
  refine ⟨?_, ?_, ?_⟩
  · intro hq; simp [addItem, hne, hq, validate_qty]
  · intro hq; simp [addItem, hne, hq, validate_qty]
  · intro pl' hok
    unfold addItem at hok
    rw [if_neg hne] at hok
    cases hq : inp.qty with
    | missing => rw [hq] at hok; simp [validate_qty] at hok
    | unparseable => rw [hq] at hok; simp [validate_qty] at hok
    | value q =>
      rw [hq] at hok
      by_cases hden : ((q : ℚ) * 100).den = 1
      · by_cases habs : |q| < 10 ^ 10
        · refine ⟨q, rfl, ⟨hden, habs⟩, ?_⟩
          simp [validate_qty, hden, habs] at hok
          cases hp : validate_price inp.price_soles with
          | ok p =>
            rw [hp] at hok
            simp at hok
            rw [← hok]
            simp
          | error e => rw [hp] at hok; simp at hok
        · simp [validate_qty, hden, habs] at hok
      · simp [validate_qty, hden] at hok

/-- Witness for C9 (amended): missing qty is rejected on a concrete draft
list. -/
theorem c9_qty_validation_amended_witness :
    demoDraftALP.status = Status.draft ∧
    addItem demoDraftALP
        { id := 42, product := "Arroz", category := "Abarrotes",
          category_id := 1, product_id := 4, unit := kgUnit,
          qty := FieldIn.missing, price_soles := PriceIn.absent } =
      Except.error "This field is required." :=
  ⟨by decide,
   (c9_qty_validation_amended demoDraftALP _ (by decide)).1 rfl⟩

/-- Report mode (core/views.py `_build_range_payload`): `detail` keeps
per-line rows, `summary` omits them. -/
inductive Mode where
  | detail
  | summary
deriving DecidableEq

/-- A `PurchaseListItem` joined with its parent list, as the aggregator
iterates it (`select_related("purchase_list__restaurant",
"product__category", "unit")`): the owning list's id, its restaurant's
name and its creation date (ISO `YYYY-MM-DD`). -/
structure Row where
  list_id : Nat
  restaurant : String
  date : String
  item : Item
deriving DecidableEq

/-- Unit label preference (core/views.py line 590):
`(unit.symbol or unit.name) or "-"`. -/
def unitLabel (u : CUnit) : String :=
  let base :=
    match u.symbol with
    | some s => if s = "" then u.name else s
    | none => u.name
  if base = "" then "-" else base

/-- A detail row of the report (core/views.py lines 598-607). -/
structure Line where
  date : String
  product : String
  unit : String
  qty : ℚ
  price : Option ℚ
  subtotal : ℚ
  unit_is_currency : Bool
deriving DecidableEq

/-- Accumulator entry for one category: `{"lines": [...] | None, "total": ...}`. -/
structure CatAcc where
  lines : Option (List Line)
  total : ℚ
deriving DecidableEq

/-- Accumulator entry for one restaurant: `{"categories": {...}, "total": ...}`. -/
structure RestAcc where
  categories : List (String × CatAcc)
  total : ℚ
deriving DecidableEq

/-- Accumulator entry for one date: `{"lists": set(), "total": ...}`. -/
structure DateAcc where
  lists : List Nat
  total : ℚ
deriving DecidableEq

/-- The three parallel accumulators of `_build_range_payload`
(core/views.py lines 579-581). -/
structure AggState where
  rest_map : List (String × RestAcc)
  date_map : List (String × DateAcc)
  grand : ℚ
deriving DecidableEq

/-- `dict.setdefault(k, d)` followed by an in-place modification `f` of the
entry, on an insertion-ordered association list with unique keys. -/
def updAssoc {β : Type} (k : String) (d : β) (f : β → β) :
    List (String × β) → List (String × β)
  | [] => [(k, f d)]
  | p :: rest => if p.1 = k then (p.1, f p.2) :: rest else p :: updAssoc k d f rest

def emptyCat (mode : Mode) : CatAcc :=
  { lines := if mode = Mode.detail then some [] else none, total := 0 }

def emptyRest : RestAcc := { categories := [], total := 0 }

def emptyDate : DateAcc := { lists := [], total := 0 }

/-- The detail row built for one item (core/views.py lines 598-607). -/
def lineOf (r : Row) : Line :=
  { date := r.date, product := r.item.product, unit := unitLabel r.item.unit,
    qty := r.item.qty.getD 0,
    price := if r.item.unit.is_currency then none
             else some (round2 (r.item.price_soles.getD 0)),
    subtotal := report_subtotal r.item,
    unit_is_currency := r.item.unit.is_currency }

/-- Category update for one item: append the line in detail mode, add its
subtotal and re-round (core/views.py lines 598-609). -/
def stepCat (mode : Mode) (line : Line) (s : ℚ) (c : CatAcc) : CatAcc :=
  { lines := if mode = Mode.detail then c.lines.map (fun ls => ls ++ [line])
             else c.lines,
    total := round2 (c.total + s) }

/-- Restaurant update for one item (core/views.py lines 595-610). -/
def stepRest (mode : Mode) (cat : String) (line : Line) (s : ℚ)
    (r : RestAcc) : RestAcc :=
  { categories := updAssoc cat (emptyCat mode) (stepCat mode line s) r.categories,
    total := round2 (r.total + s) }

/-- Date update for one item: record the owning list in the set, add the
subtotal and re-round (core/views.py lines 613-615). -/
def stepDate (lid : Nat) (s : ℚ) (d : DateAcc) : DateAcc :=
  { lists := if lid ∈ d.lists then d.lists else d.lists ++ [lid],
    total := round2 (d.total + s) }

/-- The body of the main loop of `_build_range_payload`
(core/views.py lines 583-615). -/
def stepItem (mode : Mode) (st : AggState) (r : Row) : AggState :=
  { rest_map := updAssoc r.restaurant emptyRest
      (stepRest mode r.item.category (lineOf r) (report_subtotal r.item))
      st.rest_map,
    date_map := updAssoc r.date emptyDate
      (stepDate r.list_id (report_subtotal r.item)) st.date_map,
    grand := round2 (st.grand + report_subtotal r.item) }

/-- Insert into a list sorted by `le` (used to model Python's
`sorted(keys)` iteration over the maps, whose keys are unique). -/
def insertBy {α : Type} (le : α → α → Bool) (a : α) : List α → List α
  | [] => [a]
  | b :: t => if le a b then a :: b :: t else b :: insertBy le a t

def sortBy {α : Type} (le : α → α → Bool) (l : List α) : List α :=
  l.foldr (insertBy le) []

def leKey {β : Type} (a b : String × β) : Bool := decide (a.1 ≤ b.1)

/-- An emitted category entry (core/views.py lines 620-628). -/
structure CatOut where
  category : String
  total : ℚ
  lines : Option (List Line)
deriving DecidableEq

/-- An emitted restaurant entry (core/views.py lines 630-634). -/
structure RestOut where
  restaurant : String
  total : ℚ
  categories : List CatOut
deriving DecidableEq

/-- An emitted date entry (core/views.py lines 636-642). -/
structure DateOut where
  date : String
  lists : Nat
  total : ℚ
deriving DecidableEq

/-- The report payload (core/views.py lines 644-652), restricted to the
computed parts (`mode`, totals, groupings; `start`/`end`/`only_final` are
echoes of the inputs). -/
structure Payload where
  mode : Mode
  grand_total : ℚ
  restaurants : List RestOut
  dates : List DateOut
deriving DecidableEq

def emitCat (p : String × CatAcc) : CatOut :=
  { category := p.1, total := round2 p.2.total, lines := p.2.lines }

def emitRest (p : String × RestAcc) : RestOut :=
  { restaurant := p.1, total := round2 p.2.total,
    categories := (sortBy leKey p.2.categories).map emitCat }

def emitDate (p : String × DateAcc) : DateOut :=
  { date := p.1, lists := p.2.lists.length, total := round2 p.2.total }

/-- The emission phase of `_build_range_payload`
(core/views.py lines 617-652). -/
def emitPayload (mode : Mode) (st : AggState) : Payload :=
  { mode := mode, grand_total := round2 st.grand,
    restaurants := (sortBy leKey st.rest_map).map emitRest,
    dates := (sortBy leKey st.date_map).map emitDate }

/-- `_build_range_payload` after filtering: fold the loop body over the
selected rows, then emit. -/
def buildPayload (mode : Mode) (rows : List Row) : Payload :=
  emitPayload mode
    (rows.foldl (stepItem mode) { rest_map := [], date_map := [], grand := 0 })

/-- The optional report filters (core/views.py lines 548-553). -/
structure Filters where
  category_ids : List String
  category_names : List String
  product_ids : List String
  product_names : List String
deriving DecidableEq

def parseDigitsAux : List Char → Nat → Option Nat
  | [], acc => some acc
  | c :: cs, acc =>
    if c.isDigit then parseDigitsAux cs (acc * 10 + (c.toNat - 48))
    else none

/-- Python `int(x)` on an already-stripped string (`_collect_multi` strips
its values): an optional sign followed by one or more decimal digits parses
to an integer; anything else raises, which `_to_int_list` swallows. -/
def pyInt? (s : String) : Option Int :=
  match s.data with
  | [] => none
  | '-' :: [] => none
  | '-' :: c :: cs => (parseDigitsAux (c :: cs) 0).map (fun n => -(n : Int))
  | '+' :: [] => none
  | '+' :: c :: cs => (parseDigitsAux (c :: cs) 0).map (fun n => (n : Int))
  | c :: cs => (parseDigitsAux (c :: cs) 0).map (fun n => (n : Int))

/-- `_to_int_list` (core/views.py lines 555-562): keep the values `int()`
accepts, drop the rest. -/
def to_int_list (xs : List String) : List Int :=
  xs.filterMap pyInt?

/-- The filter stage of `_build_range_payload` (core/views.py lines
564-576): id filters take precedence over name filters for the same
dimension, and an id filter whose parse result is empty applies no
restriction at all. -/
def applyFilters (f : Filters) (rows : List Row) : List Row :=
  let rows1 :=
    if f.category_ids.isEmpty then
      if f.category_names.isEmpty then rows
      else rows.filter (fun r => r.item.category ∈ f.category_names)
    else
      if (to_int_list f.category_ids).isEmpty then rows
      else rows.filter (fun r => r.item.category_id ∈ to_int_list f.category_ids)
  if f.product_ids.isEmpty then
    if f.product_names.isEmpty then rows1
    else rows1.filter (fun r => r.item.product ∈ f.product_names)
  else
    if (to_int_list f.product_ids).isEmpty then rows1
    else rows1.filter (fun r => r.item.product_id ∈ to_int_list f.product_ids)

/-- `_build_range_payload` for pre-selected rows of the date range:
apply the category/product filters, aggregate, emit. -/
def buildRangePayload (mode : Mode) (f : Filters) (rows : List Row) : Payload :=
  buildPayload mode (applyFilters f rows)

/-- No category/product filter supplied. -/
def noFilters : Filters :=
  { category_ids := [], category_names := [], product_ids := [],
    product_names := [] }

/-- The claimed accumulation: add and re-round the running sum to 2
decimals after each addition. -/
def sumRound (l : List ℚ) : ℚ := l.foldl (fun acc x => round2 (acc + x)) 0

theorem foldl_round_add {l : List ℚ} (h : ∀ x ∈ l, Mult100 x) :
    ∀ acc : ℚ, Mult100 acc →
      l.foldl (fun a x => round2 (a + x)) acc = acc + l.sum := by
  induction l with
  | nil => intro acc _; simp
  | cons x t ih =>
    intro acc ha
    have hx : Mult100 x := h x (by simp)
    simp only [List.foldl_cons]
    rw [round2_add_self ha hx,
      ih (fun y hy => h y (by simp [hy])) _ (mult100_add ha hx)]
    simp only [List.sum_cons]
    ring

theorem sumRound_eq_sum {l : List ℚ} (h : ∀ x ∈ l, Mult100 x) :
    sumRound l = l.sum := by
  rw [sumRound, foldl_round_add h 0 mult100_zero, zero_add]

theorem mult100_sum {l : List ℚ} (h : ∀ x ∈ l, Mult100 x) :
    Mult100 l.sum := by
  induction l with
  | nil => simpa using mult100_zero
  | cons x t ih =>
    rw [List.sum_cons]
    exact mult100_add (h x (by simp)) (ih (fun y hy => h y (by simp [hy])))

theorem sum_updAssoc {β : Type} (g : β → ℚ) (k : String) (d : β) (f : β → β)
    (s : ℚ) (m : List (String × β))
    (hd : g (f d) = g d + s) (hd0 : g d = 0)
    (hm : ∀ p ∈ m, g (f p.2) = g p.2 + s) :
    ((updAssoc k d f m).map (fun p => g p.2)).sum =
      (m.map (fun p => g p.2)).sum + s := by
  induction m with
  | nil => simp [updAssoc, hd, hd0]
  | cons p rest ih =>
    by_cases hk : p.1 = k
    · simp only [updAssoc]
      rw [if_pos hk, List.map_cons, List.sum_cons, hm p (by simp)]
      simp only [List.map_cons, List.sum_cons]
      ring
    · simp only [updAssoc]
      rw [if_neg hk, List.map_cons, List.sum_cons,
        ih (fun q hq => hm q (by simp [hq]))]
      simp only [List.map_cons, List.sum_cons]
      ring

theorem mem_updAssoc {β : Type} (P : String × β → Prop) (k : String) (d : β)
    (f : β → β) (m : List (String × β))
    (h1 : ∀ p ∈ m, P p)
    (h2 : P (k, f d))
    (h3 : ∀ p ∈ m, P (p.1, f p.2)) :
    ∀ q ∈ updAssoc k d f m, P q := by
  induction m with
  | nil =>
    intro q hq
    simp only [updAssoc, List.mem_singleton] at hq
    exact hq ▸ h2
  | cons p rest ih =>
    intro q hq
    by_cases hk : p.1 = k
    · rw [updAssoc, if_pos hk] at hq
      rcases List.mem_cons.mp hq with hq | hq
      · exact hq ▸ h3 p (by simp)
      · exact h1 q (by simp [hq])
    · rw [updAssoc, if_neg hk] at hq
      rcases List.mem_cons.mp hq with hq | hq
      · exact h1 q (by simp [hq])
      · exact ih (fun a ha => h1 a (by simp [ha]))
          (fun a ha => h3 a (by simp [ha])) q hq

/-- Invariant of a category accumulator: a 2-decimal total that, in detail
mode, is the plain sum of the recorded line subtotals (each themselves
2-decimal); in summary mode no lines are kept. -/
def catOK (mode : Mode) (c : CatAcc) : Prop :=
  Mult100 c.total ∧
  (mode = Mode.summary → c.lines = none) ∧
  (∀ ls, c.lines = some ls →
    (ls.map Line.subtotal).sum = c.total ∧ ∀ x ∈ ls, Mult100 x.subtotal)

/-- Invariant of a restaurant accumulator: a 2-decimal total equal to the
sum of its category totals, all categories well-formed. -/
def restOK (mode : Mode) (r : RestAcc) : Prop :=
  Mult100 r.total ∧
  (r.categories.map (fun p => p.2.total)).sum = r.total ∧
  ∀ p ∈ r.categories, catOK mode p.2

/-- Invariant of the whole aggregation state. -/
def stOK (mode : Mode) (st : AggState) : Prop :=
  Mult100 st.grand ∧
  (st.rest_map.map (fun p => p.2.total)).sum = st.grand ∧
  (∀ p ∈ st.rest_map, restOK mode p.2) ∧
  (st.date_map.map (fun p => p.2.total)).sum = st.grand ∧
  (∀ p ∈ st.date_map, Mult100 p.2.total)

theorem catOK_empty (mode : Mode) : catOK mode (emptyCat mode) := by
  refine ⟨mult100_zero, ?_, ?_⟩
  · intro h; simp [emptyCat, h]
  · intro ls hls
    cases mode with
    | summary => simp [emptyCat] at hls
    | detail =>
      simp [emptyCat] at hls
      subst hls
      simp [emptyCat]

theorem stepCat_total {mode : Mode} {line : Line} {s : ℚ} (c : CatAcc)
    (hc : Mult100 c.total) (hs : Mult100 s) :
    (stepCat mode line s c).total = c.total + s := by
  simp [stepCat, round2_add_self hc hs]

theorem catOK_stepCat {mode : Mode} {line : Line} {s : ℚ} {c : CatAcc}
    (hline : line.subtotal = s) (hs : Mult100 s) (h : catOK mode c) :
    catOK mode (stepCat mode line s c) := by
  obtain ⟨h1, h2, h3⟩ := h
  have htot : (stepCat mode line s c).total = c.total + s :=
    stepCat_total c h1 hs
  refine ⟨htot ▸ mult100_add h1 hs, ?_, ?_⟩
  · intro hm
    subst hm
    exact h2 rfl
  · intro ls hls
    cases mode with
    | summary =>
      rw [show (stepCat Mode.summary line s c).lines = c.lines from rfl,
        h2 rfl] at hls
      exact absurd hls (by simp)
    | detail =>
      have hls2 : c.lines.map (fun l0 => l0 ++ [line]) = some ls := hls
      cases hcl : c.lines with
      | none => rw [hcl] at hls2; simp at hls2
      | some ls0 =>
        rw [hcl] at hls2
        have hls3 : ls0 ++ [line] = ls := Option.some.inj hls2
        obtain ⟨hsum, hmem⟩ := h3 ls0 hcl
        constructor
        · rw [← hls3, htot, List.map_append, List.sum_append, hsum]
          simp [hline]
        · intro x hx
          rw [← hls3] at hx
          rcases List.mem_append.mp hx with hx | hx
          · exact hmem x hx
          · rw [List.mem_singleton.mp hx, hline]; exact hs

theorem restOK_stepRest {mode : Mode} {cat : String} {line : Line} {s : ℚ}
    {r : RestAcc} (hline : line.subtotal = s) (hs : Mult100 s)
    (h : restOK mode r) : restOK mode (stepRest mode cat line s r) := by
  obtain ⟨h1, h2, h3⟩ := h
  have htot : (stepRest mode cat line s r).total = r.total + s := by
    simp [stepRest, round2_add_self h1 hs]
  refine ⟨htot ▸ mult100_add h1 hs, ?_, ?_⟩
  · rw [htot, ← h2]
    exact sum_updAssoc (fun c => c.total) cat (emptyCat mode)
      (stepCat mode line s) s r.categories
      (by
        show (stepCat mode line s (emptyCat mode)).total = (emptyCat mode).total + s
        exact stepCat_total (emptyCat mode) mult100_zero hs)
      rfl
      (fun p hp => stepCat_total p.2 (h3 p hp).1 hs)
  · exact mem_updAssoc (fun p => catOK mode p.2) cat (emptyCat mode)
      (stepCat mode line s) r.categories h3
      (catOK_stepCat hline hs (catOK_empty mode))
      (fun p hp => catOK_stepCat hline hs (h3 p hp))

theorem restOK_empty (mode : Mode) : restOK mode emptyRest :=
  ⟨mult100_zero, by simp [emptyRest], by simp [emptyRest]⟩

theorem stOK_stepItem {mode : Mode} {st : AggState} (r : Row)
    (h : stOK mode st) : stOK mode (stepItem mode st r) := by
  obtain ⟨h1, h2, h3, h4, h5⟩ := h
  have hs : Mult100 (report_subtotal r.item) := mult100_round2 _
  have hline : (lineOf r).subtotal = report_subtotal r.item := rfl
  have hgrand : (stepItem mode st r).grand = st.grand + report_subtotal r.item := by
    simp [stepItem, round2_add_self h1 hs]
  refine ⟨hgrand ▸ mult100_add h1 hs, ?_, ?_, ?_, ?_⟩
  · rw [hgrand, ← h2]
    exact sum_updAssoc (fun a => a.total) r.restaurant emptyRest
      (stepRest mode r.item.category (lineOf r) (report_subtotal r.item))
      (report_subtotal r.item) st.rest_map
      (by
        show round2 (0 + report_subtotal r.item) = 0 + report_subtotal r.item
        exact round2_add_self mult100_zero hs)
      rfl
      (fun p hp => by
        show round2 (p.2.total + report_subtotal r.item) =
          p.2.total + report_subtotal r.item
        exact round2_add_self (h3 p hp).1 hs)
  · exact mem_updAssoc (fun p => restOK mode p.2) r.restaurant emptyRest
      (stepRest mode r.item.category (lineOf r) (report_subtotal r.item))
      st.rest_map h3
      (restOK_stepRest hline hs (restOK_empty mode))
      (fun p hp => restOK_stepRest hline hs (h3 p hp))
  · rw [hgrand, ← h4]
    exact sum_updAssoc (fun a => a.total) r.date emptyDate
      (stepDate r.list_id (report_subtotal r.item))
      (report_subtotal r.item) st.date_map
      (by
        show round2 (0 + report_subtotal r.item) = 0 + report_subtotal r.item
        exact round2_add_self mult100_zero hs)
      rfl
      (fun p hp => by
        show round2 (p.2.total + report_subtotal r.item) =
          p.2.total + report_subtotal r.item
        exact round2_add_self (h5 p hp) hs)
  · exact mem_updAssoc (fun p => Mult100 p.2.total) r.date emptyDate
      (stepDate r.list_id (report_subtotal r.item)) st.date_map h5
      (mult100_round2 _)
      (fun p hp => mult100_round2 _)

theorem stOK_foldl (mode : Mode) (rows : List Row) :
    ∀ st : AggState, stOK mode st →
      stOK mode (rows.foldl (stepItem mode) st) := by
  induction rows with
  | nil => intro st h; exact h
  | cons r rest ih =>
    intro st h
    exact ih (stepItem mode st r) (stOK_stepItem r h)

theorem stOK_init (mode : Mode) :
    stOK mode { rest_map := [], date_map := [], grand := 0 } :=
  ⟨mult100_zero, by simp, by simp, by simp, by simp⟩

theorem perm_insertBy {α : Type} (le : α → α → Bool) (a : α) (l : List α) :
    List.Perm (insertBy le a l) (a :: l) := by
  induction l with
  | nil => exact List.Perm.refl _
  | cons b t ih =>
    by_cases h : le a b = true
    · rw [insertBy, if_pos h]
    · rw [insertBy, if_neg h]
      exact (ih.cons b).trans (List.Perm.swap a b t)

theorem perm_sortBy {α : Type} (le : α → α → Bool) (l : List α) :
    List.Perm (sortBy le l) l := by
  induction l with
  | nil => exact List.Perm.refl _
  | cons a t ih =>
    exact (perm_insertBy le a (sortBy le t)).trans (ih.cons a)

theorem mem_sortBy {α : Type} {le : α → α → Bool} {l : List α} {x : α}
    (h : x ∈ sortBy le l) : x ∈ l :=
  (perm_sortBy le l).mem_iff.mp h

theorem sum_map_sortBy {α : Type} (le : α → α → Bool) (g : α → ℚ)
    (l : List α) : ((sortBy le l).map g).sum = (l.map g).sum :=
  ((perm_sortBy le l).map g).sum_eq

theorem round2_idem (x : ℚ) : round2 (round2 x) = round2 x :=
  round2_mult100 (mult100_round2 x)

theorem emit_totals {mode : Mode} {st : AggState} (h : stOK mode st) :
    (∀ r ∈ (emitPayload mode st).restaurants,
      round2 r.total = r.total ∧
      sumRound (r.categories.map CatOut.total) = r.total ∧
      (∀ c ∈ r.categories,
        round2 c.total = c.total ∧
        ∀ ls, c.lines = some ls →
          sumRound (ls.map Line.subtotal) = c.total)) ∧
    round2 (emitPayload mode st).grand_total =
      (emitPayload mode st).grand_total ∧
    sumRound ((emitPayload mode st).restaurants.map RestOut.total) =
      (emitPayload mode st).grand_total ∧
    (∀ d ∈ (emitPayload mode st).dates, round2 d.total = d.total) ∧
    sumRound ((emitPayload mode st).dates.map DateOut.total) =
      (emitPayload mode st).grand_total := by
  obtain ⟨hg, hrsum, hrmem, hdsum, hdmem⟩ := h
  have hgrand : (emitPayload mode st).grand_total = st.grand := by
    show round2 st.grand = st.grand
    exact round2_mult100 hg
  refine ⟨?_, ?_, ?_, ?_, ?_⟩
  · intro r hr
    obtain ⟨p, hp, hpr⟩ := List.mem_map.mp hr
    have hpm : p ∈ st.rest_map := mem_sortBy hp
    obtain ⟨hp1, hp2, hp3⟩ := hrmem p hpm
    have hr_total : r.total = p.2.total := by
      rw [← hpr]
      show round2 p.2.total = p.2.total
      exact round2_mult100 hp1
    have hr_cats : r.categories = (sortBy leKey p.2.categories).map emitCat := by
      rw [← hpr]; rfl
    have hcats_tot : r.categories.map CatOut.total =
        (sortBy leKey p.2.categories).map (fun q => q.2.total) := by
      rw [hr_cats, List.map_map]
      exact List.map_congr_left
        (fun q hq => round2_mult100 ((hp3 q (mem_sortBy hq)).1))
    refine ⟨?_, ?_, ?_⟩
    · rw [hr_total]; exact round2_mult100 hp1
    · rw [hcats_tot,
        sumRound_eq_sum (fun x hx => by
          obtain ⟨q, hq, hxq⟩ := List.mem_map.mp hx
          exact hxq ▸ (hp3 q (mem_sortBy hq)).1),
        sum_map_sortBy, hp2, hr_total]
    · intro c hc
      rw [hr_cats] at hc
      obtain ⟨q, hq, hqc⟩ := List.mem_map.mp hc
      obtain ⟨hq1, hq2, hq3⟩ := hp3 q (mem_sortBy hq)
      have hc_total : c.total = q.2.total := by
        rw [← hqc]
        show round2 q.2.total = q.2.total
        exact round2_mult100 hq1
      refine ⟨by rw [hc_total]; exact round2_mult100 hq1, ?_⟩
      intro ls hls
      have hql : q.2.lines = some ls := by rw [← hqc] at hls; exact hls
      obtain ⟨hsum, hmem⟩ := hq3 ls hql
      rw [sumRound_eq_sum (fun x hx => by
            obtain ⟨y, hy, hxy⟩ := List.mem_map.mp hx
            exact hxy ▸ hmem y hy),
        hsum, hc_total]
  · rw [hgrand]; exact round2_mult100 hg
  · rw [hgrand]
    have hmap : (emitPayload mode st).restaurants.map RestOut.total =
        (sortBy leKey st.rest_map).map (fun p => p.2.total) := by
      show ((sortBy leKey st.rest_map).map emitRest).map RestOut.total = _
      rw [List.map_map]
      exact List.map_congr_left
        (fun p hp => round2_mult100 ((hrmem p (mem_sortBy hp)).1))
    rw [hmap,
      sumRound_eq_sum (fun x hx => by
        obtain ⟨p, hp, hxp⟩ := List.mem_map.mp hx
        exact hxp ▸ (hrmem p (mem_sortBy hp)).1),
      sum_map_sortBy, hrsum]
  · intro d hd
    obtain ⟨p, hp, hpd⟩ := List.mem_map.mp hd
    have hpm : p ∈ st.date_map := mem_sortBy hp
    have hd_total : d.total = p.2.total := by
      rw [← hpd]
      show round2 p.2.total = p.2.total
      exact round2_mult100 (hdmem p hpm)
    rw [hd_total]; exact round2_mult100 (hdmem p hpm)
  · rw [hgrand]
    have hmap : (emitPayload mode st).dates.map DateOut.total =
        (sortBy leKey st.date_map).map (fun p => p.2.total) := by
      show ((sortBy leKey st.date_map).map emitDate).map DateOut.total = _
      rw [List.map_map]
      exact List.map_congr_left
        (fun p hp => round2_mult100 (hdmem p (mem_sortBy hp)))
    rw [hmap,
      sumRound_eq_sum (fun x hx => by
        obtain ⟨p, hp, hxp⟩ := List.mem_map.mp hx
        exact hxp ▸ hdmem p (mem_sortBy hp)),
      sum_map_sortBy, hdsum]

/-- C7: in every report, re-round-accumulating the line subtotals of a
category gives that category's total; the category totals of a restaurant
give the restaurant total; the restaurant totals give the grand total; the
per-date totals also give the grand total — and every emitted total is
already a 2-decimal value (re-rounding it changes nothing), because every
accumulation step re-rounds the running sum after each addition. -/
theorem c7_report_totals (mode : Mode) (rows : List Row) :
    (∀ r ∈ (buildPayload mode rows).restaurants,
      round2 r.total = r.total ∧
      sumRound (r.categories.map CatOut.total) = r.total ∧
      (∀ c ∈ r.categories,
        round2 c.total = c.total ∧
        ∀ ls, c.lines = some ls →
          sumRound (ls.map Line.subtotal) = c.total)) ∧
    round2 (buildPayload mode rows).grand_total =
      (buildPayload mode rows).grand_total ∧
    sumRound ((buildPayload mode rows).restaurants.map RestOut.total) =
      (buildPayload mode rows).grand_total ∧
    (∀ d ∈ (buildPayload mode rows).dates, round2 d.total = d.total) ∧
    sumRound ((buildPayload mode rows).dates.map DateOut.total) =
      (buildPayload mode rows).grand_total :=
  emit_totals (stOK_foldl mode rows _ (stOK_init mode))

/-- A one-row report input: 2 kg of rice at 3 soles. -/
def c7Row : Row :=
  { list_id := 1, restaurant := "Altiplano", date := "2025-01-15",
    item := { id := 2, product := "Arroz", category := "Abarrotes",
              category_id := 1, product_id := 4, unit := kgUnit,
              qty := some 2, price_soles := some 3 } }

/-- Witness for C7 on the one-row report. -/
theorem c7_report_totals_witness :
    ∃ r ∈ (buildPayload Mode.detail [c7Row]).restaurants,
      ∃ c ∈ r.categories,
        ∃ ls, c.lines = some ls ∧
          sumRound (ls.map Line.subtotal) = c.total ∧
          sumRound (r.categories.map CatOut.total) = r.total ∧
          sumRound ((buildPayload Mode.detail [c7Row]).restaurants.map RestOut.total) =
            (buildPayload Mode.detail [c7Row]).grand_total ∧
          sumRound ((buildPayload Mode.detail [c7Row]).dates.map DateOut.total) =
            (buildPayload Mode.detail [c7Row]).grand_total := by
  have h := c7_report_totals Mode.detail [c7Row]
  have hr : emitRest ("Altiplano",
      stepRest Mode.detail "Abarrotes" (lineOf c7Row) (report_subtotal c7Row.item)
        emptyRest) ∈ (buildPayload Mode.detail [c7Row]).restaurants :=
    List.mem_singleton.mpr rfl
  have hc : emitCat ("Abarrotes",
      stepCat Mode.detail (lineOf c7Row) (report_subtotal c7Row.item)
        (emptyCat Mode.detail)) ∈
      (emitRest ("Altiplano",
        stepRest Mode.detail "Abarrotes" (lineOf c7Row) (report_subtotal c7Row.item)
          emptyRest)).categories :=
    List.mem_singleton.mpr rfl
  refine ⟨_, hr, _, hc, [] ++ [lineOf c7Row], rfl, ?_, ?_, h.2.2.1, h.2.2.2.2⟩
  · exact (((h.1 _ hr).2.2 _ hc).2 _ rfl)
  · exact (h.1 _ hr).2.1

/-- C10: when the category-id filter list is non-empty but none of its
values parses as an integer, `_build_range_payload` applies no category
restriction at all — the ids are dropped, the name filter is skipped
because ids were supplied, and every item is kept; the product-id filter
behaves identically, so the report equals the unfiltered one. -/
theorem c10_unparseable_id_filters (mode : Mode) (f : Filters)
    (rows : List Row)
    (h1 : f.category_ids ≠ [])
    (h2 : ∀ x ∈ f.category_ids, pyInt? x = none)
    (h3 : f.product_ids ≠ [])
    (h4 : ∀ x ∈ f.product_ids, pyInt? x = none) :
    applyFilters f rows = rows ∧
    buildRangePayload mode f rows = buildRangePayload mode noFilters rows := by
  have hc : to_int_list f.category_ids = [] := by
    unfold to_int_list
    exact List.filterMap_eq_nil_iff.mpr h2
  have hp : to_int_list f.product_ids = [] := by
    unfold to_int_list
    exact List.filterMap_eq_nil_iff.mpr h4
  have happ : applyFilters f rows = rows := by
    simp [applyFilters, hc, hp, List.isEmpty_iff, h1, h3]
  have hnof : applyFilters noFilters rows = rows := rfl
  refine ⟨happ, ?_⟩
  unfold buildRangePayload
  rw [happ, hnof]

/-- A filter payload whose id lists hold no parseable integer while name
filters are also supplied. -/
def c10Filters : Filters :=
  { category_ids := ["abc", "12.5"], category_names := ["Verduras"],
    product_ids := ["x"], product_names := ["Pollo"] }

/-- Witness for C10 on a concrete row and filters. -/
theorem c10_unparseable_id_filters_witness :
    c10Filters.category_ids ≠ [] ∧
    (∀ x ∈ c10Filters.category_ids, pyInt? x = none) ∧
    c10Filters.product_ids ≠ [] ∧
    (∀ x ∈ c10Filters.product_ids, pyInt? x = none) ∧
    applyFilters c10Filters [c7Row] = [c7Row] ∧
    buildRangePayload Mode.detail c10Filters [c7Row] =
      buildRangePayload Mode.detail noFilters [c7Row] := by
  have h := c10_unparseable_id_filters Mode.detail c10Filters [c7Row]
    (by decide) (by decide) (by decide) (by decide)
  exact ⟨by decide, by decide, by decide, by decide, h.1, h.2⟩
